import Mathlib

/-!
Verification of the MCP (Model Context Protocol) context-aggregation layer of
the aura-healthcare chat backend, as a shallow embedding in Lean 4.

The embedded code lives in `backend/app/mcp/`:
* `context_engine.py` — relevance scoring, token-budgeted selection, medical
  entity extraction (`ContextEngine`);
* `mcp_server.py` — the aggregation server with its TTL cache (`MCPServer`);
* `providers/*.py` — the four context providers.

Modelling conventions, used throughout:
* Python floats are embedded as `ℚ` (the arithmetic involved is plain
  field arithmetic on decimal constants, so values and comparisons agree);
* Python strings are processed as `List Char` (`String.data`); the inputs in
  the repository's tests and spec scenarios are ASCII, and lowercasing is the
  ASCII one;
* Python dicts with a fixed key set become structures; a dict key that may be
  absent becomes an `Option` field; a dict used as a keyed store becomes a
  `String → Option _` map or an association list, as noted at each use;
* Python `set` accumulation (`list(set(xs))`) has unspecified iteration
  order, so it is modelled by `List.dedup`; every claim about such a list is
  stated through membership or emptiness, never through order;
* wall-clock instants (`datetime.now()`, ISO timestamps) become an explicit
  numeric `now` parameter, in the unit each piece of code measures
  (hours for `score_relevance`, days for the history relevance, integer
  seconds for the server cache);
* a `try/except` body becomes an `Except String _` parameter: `.ok` carries
  the data the backing store returned, `.error e` models any exception
  raised inside the `try` block (`str(e) = e`).
-/

namespace Aura

/-! ## Character and word utilities (Python `str.lower`, `in`, `str.split`) -/

/-- ASCII lowercasing of one character, as `str.lower` acts on the ASCII
inputs the spec exercises. -/
def lowerChar (c : Char) : Char :=
  if 'A' ≤ c ∧ c ≤ 'Z' then Char.ofNat (c.toNat + 32) else c

/-- A Python string, lowercased, as a list of characters. -/
def lowerStr (s : String) : List Char := s.data.map lowerChar

/-- Regex word character, `[a-zA-Z0-9_]`. -/
def isWordChar (c : Char) : Bool :=
  ('a' ≤ c && c ≤ 'z') || ('A' ≤ c && c ≤ 'Z') || ('0' ≤ c && c ≤ '9') || c = '_'

/-- ASCII whitespace recognised by `str.split()` (space, tab, LF, VT, FF, CR). -/
def isSpaceChar (c : Char) : Bool :=
  c = ' ' || c = '\t' || c = '\n' || c = '\r' || c.toNat = 11 || c.toNat = 12

/-- `needle` occurs at the very start of `hay`. -/
def lcStarts : List Char → List Char → Bool
  | [], _ => true
  | _ :: _, [] => false
  | a :: as, b :: bs => a = b && lcStarts as bs

/-- Python substring test `needle in hay`. -/
def containsSub (hay needle : List Char) : Bool :=
  lcStarts needle hay ||
    match hay with
    | [] => false
    | _ :: t => containsSub t needle

/-- Helper for `splitWs`: accumulates the current (reversed) word. -/
def splitWsGo : List Char → List Char → List (List Char)
  | acc, [] => if acc = [] then [] else [acc.reverse]
  | acc, c :: t =>
    if isSpaceChar c then
      if acc = [] then splitWsGo [] t else acc.reverse :: splitWsGo [] t
    else splitWsGo (c :: acc) t

/-- Python `str.split()` with no argument: words separated by runs of
whitespace, with no empty tokens. -/
def splitWs (l : List Char) : List (List Char) := splitWsGo [] l

/-- Number of distinct words shared by two already lowercased texts:
`len(set(a.split()) & set(b.split()))`. -/
def commonWords (a b : List Char) : ℕ :=
  ((splitWs a).dedup.filter (fun w => (splitWs b).contains w)).length

/-! ## ContextEngine.score_relevance (context_engine.py lines 21-59)

A scored context is a Python dict; the keys the scorer reads are the five
content fields, `timestamp` and `confidence`.  Dict keys the scorer never
reads are irrelevant to it and are not modelled.  `timestamp` holds an ISO
string in the code; here it is the parsed instant in hours (`none` for a
missing key or an unparseable string, which the code treats alike via its
inner `try/except: pass`). -/

structure CtxRecord where
  content : Option String := none
  text : Option String := none
  description : Option String := none
  symptoms : Option String := none
  diagnosis : Option String := none
  timestamp : Option ℚ := none
  confidence : Option ℚ := none
deriving DecidableEq

/-- The record models the empty dict (`not context` is true in Python). -/
def CtxRecord.isEmpty (r : CtxRecord) : Bool :=
  r.content = none && r.text = none && r.description = none &&
    r.symptoms = none && r.diagnosis = none && r.timestamp = none &&
    r.confidence = none

/-- The values of the five content fields, in the order the code lists them. -/
def contentFieldsOf (r : CtxRecord) : List (Option String) :=
  [r.content, r.text, r.description, r.symptoms, r.diagnosis]

/-- Distinct-word overlap of the query with one (optional) content field,
both lowercased. -/
def fieldCommon (queryLower : List Char) : Option String → ℕ
  | none => 0
  | some s => commonWords queryLower (lowerStr s)

/-- Keyword part of the score: `0.1` per shared distinct word, per field. -/
def kwComponent (query : String) (r : CtxRecord) : ℚ :=
  ((contentFieldsOf r).map (fun f => (fieldCommon (lowerStr query) f : ℚ) * (1/10))).sum

/-- Recency part: `+0.3` under 24 hours of age, `+0.1` under 168 hours. -/
def recencyBonus (now : ℚ) : Option ℚ → ℚ
  | none => 0
  | some ts => if now - ts < 24 then 3/10 else if now - ts < 168 then 1/10 else 0

/-- Confidence part: `confidence * 0.2` when the key is present. -/
def confidenceBonus : Option ℚ → ℚ
  | none => 0
  | some c => c * (2/10)

/-- `ContextEngine.score_relevance(context, query)` with the wall clock
passed explicitly (hours). -/
def score_relevance (now : ℚ) (context : CtxRecord) (query : String) : ℚ :=
  if context.isEmpty || query = "" then 0
  else
    min (kwComponent query context + recencyBonus now context.timestamp +
      confidenceBonus context.confidence) 1

/-! ## ContextEngine.optimize_context (context_engine.py lines 61-95)

The selection reads exactly two things off each record: its
`relevance_score` (via `.get`, default `0`) and the length of `str(record)`;
they are passed as functions so the greedy loop is stated once for any
record representation. -/

/-- `len(str(context)) // 4`, the cheap token estimate. -/
def estTokens {α : Type} (strLen : α → ℕ) (c : α) : ℕ := strLen c / 4

/-- Python `sorted(contexts, key=relevance_score, reverse=True)`:
stable descending sort. -/
def sortByRelevance {α : Type} (rel : α → ℚ) (contexts : List α) : List α :=
  contexts.mergeSort (fun a b => decide (rel b ≤ rel a))

/-- The greedy loop: accept while the running total stays within budget,
`break` at the first record that would exceed it. -/
def optimizeGo {α : Type} (strLen : α → ℕ) (max_tokens : ℕ) :
    List α → ℕ → List α
  | [], _ => []
  | c :: rest, token_count =>
    if token_count + estTokens strLen c ≤ max_tokens then
      c :: optimizeGo strLen max_tokens rest (token_count + estTokens strLen c)
    else []

/-- `ContextEngine.optimize_context(contexts, max_tokens)`. -/
def optimize_context {α : Type} (rel : α → ℚ) (strLen : α → ℕ)
    (contexts : List α) (max_tokens : ℕ) : List α :=
  optimizeGo strLen max_tokens (sortByRelevance rel contexts) 0

/-! ## ContextEngine.extract_medical_entities (context_engine.py lines 97-141)

`re.findall` over the code's fixed patterns is embedded by compiling each
pattern by hand into a scanner with Python's leftmost, alternation-in-order,
non-overlapping semantics.  Word boundaries (`\b`) are checked against the
previous character; every alternative in the code's patterns starts and ends
with a word character, so a leading `\b` is "previous character is not a
word character". -/

def isDigitChar (c : Char) : Bool := '0' ≤ c && c ≤ '9'

/-- The word `w` matches at the head of `rem`, with a trailing `\b`. -/
def wordAt (w rem : List Char) : Bool :=
  lcStarts w rem &&
    match rem.drop w.length with
    | [] => true
    | c :: _ => !isWordChar c

/-- Generic `findall` scan: at each position whose left context is a word
boundary, `tryAt` either yields (token to record, matched length ≥ 1) — the
scan then resumes after the match — or the scan moves one character right.
The structural `fuel` only needs to cover the text length (each step consumes
at least one character); callers pass the text's length. -/
def scanLC (tryAt : List Char → Option (List Char × ℕ)) :
    ℕ → Option Char → List Char → List (List Char)
  | _, _, [] => []
  | 0, _, _ => []
  | fuel + 1, prev, c :: rest =>
    let bOk := match prev with
      | none => true
      | some p => !isWordChar p
    match if bOk then tryAt (c :: rest) else none with
    | some (tok, n) =>
      tok :: scanLC tryAt fuel (some ((c :: rest).getD (n - 1) c)) (rest.drop (n - 1))
    | none => scanLC tryAt fuel (some c) rest

/-- `tryAt` for a word alternation `\b(w1|w2|…)\b`: the first alternative
matching here with its trailing boundary. -/
def tryWords (words : List (List Char)) (l : List Char) : Option (List Char × ℕ) :=
  (words.find? (fun w => !w.isEmpty && wordAt w l)).map (fun w => (w, w.length))

/-- `tryAt` for `\b(\d+)\s*(day|week|month|year)s?\s*ago\b`: on a match the
recorded token is the two groups joined by one space (`" ".join(m)`). -/
def tryTimeAgo (l : List Char) : Option (List Char × ℕ) :=
  let digits := l.takeWhile isDigitChar
  if digits.isEmpty then none
  else
    let r1 := l.drop digits.length
    let ws1 := r1.takeWhile isSpaceChar
    let r2 := r1.drop ws1.length
    match (["day", "week", "month", "year"].map String.data).find?
        (fun u => lcStarts u r2) with
    | none => none
    | some unit =>
      let r3 := r2.drop unit.length
      let sLen := if lcStarts ['s'] r3 then 1 else 0
      let r4 := r3.drop sLen
      let ws2 := r4.takeWhile isSpaceChar
      let r5 := r4.drop ws2.length
      if wordAt ['a', 'g', 'o'] r5 then
        some (digits ++ [' '] ++ unit,
          digits.length + ws1.length + unit.length + sLen + ws2.length + 3)
      else none

/-- `tryAt` for `\b(today|yesterday|last\s+\w+|this\s+\w+)\b`: alternatives
in the pattern's order; the token is the matched text itself. -/
def tryTimeRel (l : List Char) : Option (List Char × ℕ) :=
  if wordAt "today".data l then some ("today".data, 5)
  else if wordAt "yesterday".data l then some ("yesterday".data, 9)
  else
    let relWord (w : List Char) : Option (List Char × ℕ) :=
      if lcStarts w l then
        let r1 := l.drop w.length
        let ws := r1.takeWhile isSpaceChar
        if ws.isEmpty then none
        else
          let r2 := r1.drop ws.length
          let tail := r2.takeWhile isWordChar
          if tail.isEmpty then none
          else some (w ++ ws ++ tail, w.length + ws.length + tail.length)
      else none
    match relWord "last".data with
    | some m => some m
    | none => relWord "this".data

def symptomWords1 : List String :=
  ["pain", "ache", "fever", "cough", "nausea", "vomiting", "dizziness",
   "fatigue", "headache"]

def symptomWords2 : List String :=
  ["swelling", "rash", "itching", "bleeding", "burning", "numbness"]

def bodyPartsList : List String :=
  ["head", "chest", "stomach", "abdomen", "back", "leg", "arm",
   "hand", "foot", "eye", "ear", "throat", "heart", "lung"]

def strOf (l : List Char) : String := ⟨l⟩

/-- `re.findall(r'\b(w1|w2|…)\b', text)`. -/
def findWordMatches (words : List String) (text : List Char) : List String :=
  (scanLC (tryWords (words.map String.data)) text.length none text).map strOf

/-- `ContextEngine.extract_medical_entities(text)`: the result dict as an
association list, keys in the code's insertion order.  `list(set(…))`
deduplication is modelled by `List.dedup` (the Python iteration order of a
set is unspecified). -/
def extract_medical_entities (text : String) : List (String × List String) :=
  let tl := lowerStr text
  let symptoms := findWordMatches symptomWords1 tl ++ findWordMatches symptomWords2 tl
  let timeRefs :=
    (scanLC tryTimeAgo tl.length none tl ++ scanLC tryTimeRel tl.length none tl).map strOf
  let body_parts := bodyPartsList.filter (fun p => containsSub tl p.data)
  [("symptoms", symptoms.dedup),
   ("medications", ([] : List String).dedup),
   ("conditions", ([] : List String).dedup),
   ("body_parts", body_parts.dedup),
   ("time_references", timeRefs.dedup)]

/-- Dict read `entities[key]` with the empty-list default the providers rely on. -/
def entityGet (entities : List (String × List String)) (key : String) : List String :=
  ((entities.lookup key).getD [])

/-! ## ServiceClassificationProvider (service_classification_provider.py)

The classifier's regexes (searched with `re.search`, boolean use only) are
built from word boundaries, literals, alternations of literals, and `.*`;
they are compiled by hand into lists of the following tokens, matched by a
backtracking matcher equivalent (for the boolean result) to Python's. -/

inductive Pat where
  | lit : List Char → Pat
  | alts : List (List Char) → Pat
  | anyStar : Pat
  | wb : Pat

def isWordO : Option Char → Bool
  | none => false
  | some c => isWordChar c

/-- Previous character after consuming the literal `s`. -/
def newPrev (s : List Char) (prev : Option Char) : Option Char :=
  match s.getLast? with
  | some c => some c
  | none => prev

/-- The pattern list matches a prefix of `rem` (left context `prev`).  The
structural `fuel` bounds the recursion depth; every call strictly decreases
`rem.length + ps.length`, so callers pass `rem.length + ps.length + 1`. -/
def pmatch : ℕ → List Pat → Option Char → List Char → Bool
  | 0, _, _, _ => false
  | _ + 1, [], _, _ => true
  | fuel + 1, p :: ps, prev, rem =>
    match p with
    | .wb => (isWordO prev != isWordO rem.head?) && pmatch fuel ps prev rem
    | .lit s => lcStarts s rem && pmatch fuel ps (newPrev s prev) (rem.drop s.length)
    | .alts ws =>
      ws.any (fun w => lcStarts w rem && pmatch fuel ps (newPrev w prev) (rem.drop w.length))
    | .anyStar =>
      pmatch fuel ps prev rem ||
        match rem with
        | [] => false
        | c :: rest => c != '\n' && pmatch fuel (Pat.anyStar :: ps) (some c) rest

/-- `re.search`: try every start position, left to right. -/
def researchGo (ps : List Pat) : Option Char → List Char → Bool
  | prev, rem =>
    pmatch (rem.length + ps.length + 1) ps prev rem ||
      match rem with
      | [] => false
      | c :: rest => researchGo ps (some c) rest

def research (ps : List Pat) (text : List Char) : Bool := researchGo ps none text

/-- Shorthand for an alternation of literal words. -/
def altsOf (ws : List String) : Pat := Pat.alts (ws.map String.data)

structure ServiceRule where
  name : String
  keywords : List String
  pats : List (List Pat)

/-- The ruleset `_build_classification_patterns` installs (the per-type
`accuracy` entry, a display-only statistic, is not modelled). -/
def classificationRules : List ServiceRule :=
  [{ name := "Health Query",
     keywords := ["pain", "symptom", "sick", "fever", "cough", "headache",
       "dizzy", "nausea", "ache", "hurt", "feel", "doctor",
       "diagnosis", "treatment", "prescription", "medication",
       "allergy", "condition", "disease", "injury", "bleeding"],
     pats := [
       [Pat.wb, altsOf ["how", "what", "why", "when"], Pat.anyStar,
        altsOf ["feel", "symptom", "pain", "sick"], Pat.wb],
       [Pat.wb, altsOf ["i have", "experiencing", "suffering from"], Pat.wb],
       [Pat.wb, Pat.lit "can you ".data, altsOf ["help", "tell", "explain"], Pat.wb]] },
   { name := "Appointment Booking",
     keywords := ["appointment", "schedule", "book", "meeting", "visit",
       "available", "slot", "time", "date", "cancel", "reschedule",
       "see doctor", "consultation", "check-up"],
     pats := [
       [Pat.wb, altsOf ["book", "schedule", "make", "need", "want"], Pat.anyStar,
        altsOf ["appointment", "visit", "meeting"], Pat.wb],
       [Pat.wb, altsOf ["available", "when can", "what time"], Pat.wb],
       [Pat.wb, altsOf ["cancel", "reschedule", "change"], Pat.wb, Pat.anyStar,
        Pat.wb, Pat.lit "appointment".data, Pat.wb]] },
   { name := "Phlebotomy",
     keywords := ["blood test", "lab test", "blood work", "sample",
       "phlebotomy", "draw blood", "blood collection",
       "test results", "lab results"],
     pats := [
       [Pat.wb, altsOf ["blood", "lab"], Pat.anyStar,
        altsOf ["test", "work", "sample", "result"], Pat.wb],
       [Pat.wb, Pat.lit "phlebotomy".data, Pat.wb]] },
   { name := "Insurance Query",
     keywords := ["insurance", "coverage", "claim", "copay", "deductible",
       "premium", "benefits", "policy", "billing", "cost",
       "payment", "covered", "provider network"],
     pats := [
       [Pat.wb, altsOf ["insurance", "coverage"], Pat.anyStar,
        altsOf ["question", "query", "covered", "cost"], Pat.wb],
       [Pat.wb, altsOf ["copay", "deductible", "premium", "claim"], Pat.wb]] },
   { name := "Tech Support",
     keywords := ["app", "website", "login", "password", "error", "bug",
       "not working", "problem", "issue", "technical", "access",
       "account", "sign in", "reset", "portal"],
     pats := [
       [Pat.wb, altsOf ["app", "website", "portal"], Pat.anyStar,
        altsOf ["not working", "error", "problem", "issue"], Pat.wb],
       [Pat.wb, altsOf ["can't", "cannot"], Pat.anyStar,
        altsOf ["login", "access", "sign in"], Pat.wb],
       [Pat.wb, altsOf ["password", "account"], Pat.anyStar,
        altsOf ["reset", "forgot", "recover"], Pat.wb]] },
   { name := "Attachment Shared",
     keywords := ["attachment", "file", "document", "report", "image",
       "upload", "send", "share", "photo", "scan", "pdf"],
     pats := [
       [Pat.wb, altsOf ["attach", "upload", "send", "share"], Pat.anyStar,
        altsOf ["file", "document", "report", "image"], Pat.wb],
       [Pat.wb, altsOf ["see", "view", "check"], Pat.anyStar,
        altsOf ["attachment", "report", "document"], Pat.wb]] },
   { name := "Customer Experience",
     keywords := ["feedback", "complaint", "suggestion", "review", "rating",
       "experience", "service", "satisfied", "unhappy", "issue"],
     pats := [
       [Pat.wb, altsOf ["feedback", "complaint", "suggestion"], Pat.wb],
       [Pat.wb, altsOf ["rate", "review"], Pat.anyStar,
        altsOf ["service", "experience"], Pat.wb]] }]

/-- `sum(1 for kw in keywords if kw in message_lower)`. -/
def keywordHits (r : ServiceRule) (m : List Char) : ℕ :=
  (r.keywords.filter (fun kw => containsSub m kw.data)).length

/-- `sum(1 for pattern in patterns if re.search(pattern, message_lower, re.IGNORECASE))`
(the message is already lowercased and the patterns are lowercase, so the
IGNORECASE flag changes nothing). -/
def patternHits (r : ServiceRule) (m : List Char) : ℕ :=
  (r.pats.filter (fun p => research p m)).length

/-- One service type's score: `min(kw/3,1)*0.6 + min(pat/2,1)*0.4`. -/
def ruleScore (r : ServiceRule) (m : List Char) : ℚ :=
  min ((keywordHits r m : ℚ) / 3) 1 * (6/10) + min ((patternHits r m : ℚ) / 2) 1 * (4/10)

def subServiceSpecialties : List (String × List String) :=
  [("cardiology", ["heart", "cardiac", "chest pain", "blood pressure"]),
   ("dermatology", ["skin", "rash", "acne", "itch"]),
   ("orthopedics", ["bone", "joint", "fracture", "sprain"]),
   ("neurology", ["headache", "migraine", "seizure", "brain"]),
   ("gastro", ["stomach", "digestion", "nausea", "diarrhea"]),
   ("respiratory", ["cough", "breathing", "asthma", "lung"])]

/-- `_detect_sub_services(message, service_type)` (message already lowercased). -/
def detect_sub_services (message : List Char) (service_type : String) : List String :=
  if service_type = "Health Query" then
    (subServiceSpecialties.filter
      (fun p => p.2.any (fun kw => containsSub message kw.data))).map Prod.fst
  else if service_type = "Appointment Booking" then
    (if containsSub message "cancel".data || containsSub message "reschedule".data then
      ["modification"]
     else if containsSub message "book".data || containsSub message "schedule".data then
      ["new_booking"]
     else []) ++
    (if containsSub message "urgent".data || containsSub message "asap".data ||
        containsSub message "emergency".data then ["urgent"] else [])
  else []

structure Classification where
  service_type : String
  confidence : ℚ
  sub_services : List String
  alternatives : List (String × ℚ)
deriving DecidableEq

/-- Python `max` over a list (`None` for an empty one, where Python raises). -/
def pyMax : List ℚ → Option ℚ
  | [] => none
  | x :: xs => some (xs.foldl max x)

def fallbackClassification : Classification :=
  { service_type := "General Query", confidence := 3/10, sub_services := [],
    alternatives := [] }

/-- `ServiceClassificationProvider.classify_interaction(user_id, message, …)`
(the user and conversation arguments are unused by the code).  The
`classification_accuracy` display key is not modelled. -/
def classify_interaction (message : String) : Classification :=
  let m := lowerStr message
  let scores := classificationRules.map (fun r => (r.name, ruleScore r m))
  match pyMax (scores.map Prod.snd) with
  | none => fallbackClassification
  | some mx =>
    if mx = 0 then fallbackClassification
    else
      match scores.mergeSort (fun a b => decide (b.2 ≤ a.2)) with
      | [] => fallbackClassification
      | top :: rest =>
        { service_type := top.1, confidence := top.2,
          sub_services := detect_sub_services m top.1,
          alternatives := (rest.take 3).filter (fun p => decide (3/10 < p.2)) }

/-! ## The four providers' `get_context` (providers/*.py)

Each `get_context` wraps its whole body in `try/except Exception`; the
`except` arm returns `{"source": …, "error": str(e), "relevance_score": 0.0}`.
The body's interaction with the backing store is passed as an
`Except String _`: `.ok` carries the fetched data, `.error e` models any
exception the `try` block raised.  Dict keys absent from the Python error
dict are the neutral defaults (`[]`, `0`, `none`) in the unified record. -/

structure SCCtx where
  source : String
  predicted_service_type : Option String
  confidence : Option ℚ
  sub_services : List String
  alternative_classifications : List (String × ℚ)
  relevance_score : ℚ
  error : Option String
deriving DecidableEq

def ServiceClassificationProvider.get_context (message : String)
    (body : Except String Unit) : SCCtx :=
  match body with
  | .error e =>
    { source := "service_classification", predicted_service_type := none,
      confidence := none, sub_services := [], alternative_classifications := [],
      relevance_score := 0, error := some e }
  | .ok _ =>
    let c := classify_interaction message
    { source := "service_classification",
      predicted_service_type := some c.service_type,
      confidence := some c.confidence, sub_services := c.sub_services,
      alternative_classifications := c.alternatives,
      relevance_score := c.confidence, error := none }

structure PHConv where
  id : String
  created_at : Option ℚ
  topic : String
  message_count : ℕ
deriving DecidableEq

structure PHData where
  conversations : List PHConv
  recent_messages : List String
  allergies : List String
deriving DecidableEq

structure PHCtx where
  source : String
  previous_conversations : List (String × String × ℕ)
  recent_symptoms : List String
  medication_history : List String
  known_conditions : List String
  allergy_alerts : List String
  total_conversations : ℕ
  total_messages : ℕ
  relevance_score : ℚ
  error : Option String
deriving DecidableEq

/-- `PatientHistoryProvider._calculate_relevance(message, symptoms,
medications, conversations)`; `now` and `created_at` are in days, and
`(datetime.now() - latest).days` floors. -/
def calcHistRelevance (now : ℚ) (message : String)
    (symptoms medications : List String) (conversations : List PHConv) : ℚ :=
  let ml := lowerStr message
  let symScore := ((symptoms.filter (fun s => containsSub ml s.data)).length : ℚ) * (2/10)
  let medScore := ((medications.filter (fun s => containsSub ml s.data)).length : ℚ) * (2/10)
  let recency :=
    match conversations.head? with
    | none => 0
    | some conv =>
      match conv.created_at with
      | none => 0
      | some latest =>
        if (⌊now - latest⌋ : ℤ) < 7 then 3/10
        else if (⌊now - latest⌋ : ℤ) < 30 then 1/10 else 0
  let convBoost : ℚ := if 5 < conversations.length then 2/10 else 0
  min (symScore + medScore + recency + convBoost) 1

/-- `PatientHistoryProvider.get_context`.  `fetch.ok` carries the store's
answers: the user's conversation headers (as queried: newest first, at most
50), the at most 100 newest messages of the 10 newest conversations, and the
profile's allergy list.  Entity sets accumulated over messages keep
first-seen order (Python set order is unspecified). -/
def PatientHistoryProvider.get_context (now : ℚ) (message : String)
    (fetch : Except String PHData) : PHCtx :=
  match fetch with
  | .error e =>
    { source := "patient_history", previous_conversations := [],
      recent_symptoms := [], medication_history := [], known_conditions := [],
      allergy_alerts := [], total_conversations := 0, total_messages := 0,
      relevance_score := 0, error := some e }
  | .ok d =>
    let symptoms :=
      (d.recent_messages.flatMap (fun c => entityGet (extract_medical_entities c) "symptoms")).dedup
    let medications :=
      (d.recent_messages.flatMap (fun c => entityGet (extract_medical_entities c) "medications")).dedup
    let conditions :=
      (d.recent_messages.flatMap (fun c => entityGet (extract_medical_entities c) "conditions")).dedup
    { source := "patient_history",
      previous_conversations :=
        (d.conversations.take 10).map (fun c => (c.id, c.topic, c.message_count)),
      recent_symptoms := symptoms.take 10,
      medication_history := medications.take 10,
      known_conditions := conditions.take 5,
      allergy_alerts := d.allergies,
      total_conversations := d.conversations.length,
      total_messages := d.recent_messages.length,
      relevance_score := calcHistRelevance now message symptoms medications d.conversations,
      error := none }

structure KBEntry where
  id : String
  title : String
  content : String
  specialty : String
  tags : List String
  created_by : String
deriving DecidableEq

structure KBCtx where
  source : String
  specialty : String
  relevant_knowledge : List (KBEntry × ℚ)
  total_entries : ℕ
  matched_entries : ℕ
  relevance_score : ℚ
  error : Option String
deriving DecidableEq

def specialtyKeywords : List (String × List String) :=
  [("Cardiology", ["heart", "cardiac", "blood pressure", "chest pain", "arrhythmia"]),
   ("Dermatology", ["skin", "rash", "acne", "eczema", "psoriasis"]),
   ("Orthopedics", ["bone", "joint", "fracture", "sprain", "arthritis"]),
   ("Neurology", ["headache", "migraine", "seizure", "brain", "nerve"]),
   ("Gastroenterology", ["stomach", "digestion", "nausea", "diarrhea", "gut"]),
   ("Respiratory", ["cough", "breathing", "asthma", "lung", "bronchitis"]),
   ("Pediatrics", ["child", "baby", "infant", "kid", "pediatric"]),
   ("Gynecology", ["pregnancy", "menstrual", "gynecological", "women"]),
   ("Psychiatry", ["mental", "depression", "anxiety", "stress", "psychiatric"])]

/-- `KnowledgeBaseProvider._detect_specialty(message)`. -/
def detect_specialty (message : String) : String :=
  match specialtyKeywords.find?
      (fun p => p.2.any (fun kw => containsSub (lowerStr message) kw.data)) with
  | some p => p.1
  | none => "General Medicine"

/-- The scorer's view of a knowledge entry dict: of the keys the scorer
reads, only `content` is present (no `timestamp`, no `confidence` key —
entries carry `created_at`, which the scorer does not read). -/
def kbEntryRecord (e : KBEntry) : CtxRecord := { content := some e.content }

/-- `KnowledgeBaseProvider.get_context`; `fetch.ok` carries the processed
entries `_fetch_knowledge(specialty)` returned. -/
def KnowledgeBaseProvider.get_context (now : ℚ) (message : String)
    (fetch : Except String (List KBEntry)) : KBCtx :=
  match fetch with
  | .error e =>
    { source := "knowledge_base", specialty := "", relevant_knowledge := [],
      total_entries := 0, matched_entries := 0, relevance_score := 0,
      error := some e }
  | .ok entries =>
    let specialty := detect_specialty message
    let relevant := entries.filterMap (fun e =>
      let s := score_relevance now (kbEntryRecord e) message
      if 3/10 < s then some (e, s) else none)
    let sorted := relevant.mergeSort (fun a b => decide (b.2 ≤ a.2))
    { source := "knowledge_base", specialty := specialty,
      relevant_knowledge := sorted.take 10,
      total_entries := entries.length,
      matched_entries := relevant.length,
      relevance_score :=
        if relevant.isEmpty then 0 else ((sorted.take 5).map Prod.snd).sum / 5,
      error := none }

structure MIData where
  similar_cases : List (String × String)
  treatments : List (String × ℕ)
  clusters : List (String × List String)
deriving DecidableEq

structure MICtx where
  source : String
  message : Option String
  detected_symptoms : List String
  similar_cases : ℕ
  common_treatments : List (String × ℕ)
  symptom_clusters : List (String × List String)
  average_resolution_time : Option String
  relevance_score : ℚ
  error : Option String
deriving DecidableEq

/-- `MedicalIntelligenceProvider.get_context`; `fetch.ok` carries the
store-derived aggregates the three helper queries returned ((symptom,
conversation) pairs for similar cases, (context, frequency) treatment
patterns, (symptom, related) clusters). -/
def MedicalIntelligenceProvider.get_context (message : String)
    (fetch : Except String MIData) : MICtx :=
  match fetch with
  | .error e =>
    { source := "medical_intelligence", message := none, detected_symptoms := [],
      similar_cases := 0, common_treatments := [], symptom_clusters := [],
      average_resolution_time := none, relevance_score := 0, error := some e }
  | .ok d =>
    let symptoms := entityGet (extract_medical_entities message) "symptoms"
    if symptoms.isEmpty then
      { source := "medical_intelligence",
        message := some "No symptoms detected for pattern analysis",
        detected_symptoms := [], similar_cases := 0, common_treatments := [],
        symptom_clusters := [], average_resolution_time := none,
        relevance_score := 0, error := none }
    else
      { source := "medical_intelligence", message := none,
        detected_symptoms := symptoms,
        similar_cases := d.similar_cases.length,
        common_treatments := d.treatments.take 5,
        symptom_clusters := d.clusters.take 3,
        average_resolution_time :=
          some (if d.similar_cases.isEmpty then "N/A" else "3-7 days (estimated)"),
        relevance_score := min ((d.similar_cases.length : ℚ) / 10) 1,
        error := none }

/-! ## MCPServer.get_context (mcp_server.py lines 60-135)

The aggregator reads each provider's returned dict only through
`.get("relevance_score", 0)`; `MCPRecord` models that view, `payload` giving
records an identity.  `context_summary`, built from provider-specific payload
fields, is not modelled (no claim reads it).  The cache dict becomes a map
`String → Option CacheEntry`; the clock is in integer seconds, and
`(datetime.now() - cached).seconds` — the seconds *component* of a timedelta,
which wraps every 24 h — is `(now - cached) % 86400` (mathematical mod, as
timedelta normalisation floors the day count). -/

structure MCPRecord where
  relevance_score : Option ℚ
  payload : ℕ
deriving DecidableEq

structure AggregatedContext where
  timestamp : ℤ
  user_id : String
  conversation_id : Option String
  contexts : List (String × MCPRecord)
  total_relevance : ℚ
deriving DecidableEq

structure CacheEntry where
  timestamp : ℤ
  context : AggregatedContext
deriving DecidableEq

def cacheTTL : ℤ := 300

def providerNames : List String :=
  ["patient_history", "service_classification", "knowledge_base",
   "medical_intelligence"]

/-- `f"{user_id}:{conversation_id}:{message[:50]}"` (`None` renders as the
string `"None"`). -/
def mcpCacheKey (user_id : String) (conversation_id : Option String)
    (message : String) : String :=
  user_id ++ ":" ++ (match conversation_id with | none => "None" | some c => c) ++
    ":" ++ message.take 50

/-- The aggregation loop over `enumerate(providers_to_use)`: position `i`
indexes into the gathered results; an `Exception` entry is skipped.
`aggregated["contexts"]` is a dict keyed by provider name; for the
duplicate-free selections the theorems quantify over, consing in iteration
order models its insertion order exactly. -/
def aggLoop (providers : List String) (gathered : List (Except String MCPRecord)) :
    ℕ → List String → List (String × MCPRecord) × ℚ
  | _, [] => ([], 0)
  | i, n :: rest =>
    let tail := aggLoop providers gathered (i + 1) rest
    if providers.contains n && decide (i < gathered.length) then
      match gathered[i]? with
      | some (Except.ok r) => ((n, r) :: tail.1, r.relevance_score.getD 0 + tail.2)
      | _ => tail
    else tail

/-- `MCPServer.get_context` as a function of the current clock, the cache
state and the outcome of each provider's invocation (`results`); it returns
the aggregated context and the new cache state. -/
def MCPServer.get_context (now : ℤ) (cache : String → Option CacheEntry)
    (results : String → Except String MCPRecord) (user_id : String)
    (message : String) (conversation_id : Option String)
    (context_types : Option (List String)) :
    AggregatedContext × (String → Option CacheEntry) :=
  let key := mcpCacheKey user_id conversation_id message
  let hit :=
    match cache key with
    | some entry =>
      if (now - entry.timestamp).emod 86400 < cacheTTL then some entry.context
      else none
    | none => none
  match hit with
  | some ctx => (ctx, cache)
  | none =>
    let providers_to_use :=
      match context_types with
      | none => providerNames
      | some [] => providerNames
      | some l => l
    let gathered :=
      (providers_to_use.filter (fun n => providerNames.contains n)).map results
    let agg0 := aggLoop providerNames gathered 0 providers_to_use
    let agg : AggregatedContext :=
      { timestamp := now, user_id := user_id, conversation_id := conversation_id,
        contexts := agg0.1, total_relevance := agg0.2 }
    (agg, fun k => if k = key then some ⟨now, agg⟩ else cache k)

/-- The per-provider outcome of one aggregation round, as the loop records
it: an `ok` invocation contributes its record under the provider's name, a
raising one contributes nothing. -/
def okPair (results : String → Except String MCPRecord) (n : String) :
    Option (String × MCPRecord) :=
  match results n with
  | Except.ok r => some (n, r)
  | Except.error _ => none

/-! Helper lemmas for the greedy selection. -/

lemma optimizeGo_take {α : Type} (strLen : α → ℕ) (max_tokens : ℕ) :
    ∀ (l : List α) (tok : ℕ), ∃ n, optimizeGo strLen max_tokens l tok = l.take n := by
  intro l
  induction l with
  | nil => intro tok; exact ⟨0, rfl⟩
  | cons c rest ih =>
    intro tok
    by_cases h : tok + estTokens strLen c ≤ max_tokens
    · obtain ⟨n, hn⟩ := ih (tok + estTokens strLen c)
      exact ⟨n + 1, by simp [optimizeGo, h, hn]⟩
    · exact ⟨0, by simp [optimizeGo, h]⟩

lemma optimizeGo_budget {α : Type} (strLen : α → ℕ) (max_tokens : ℕ) :
    ∀ (l : List α) (tok : ℕ), tok ≤ max_tokens →
      tok + ((optimizeGo strLen max_tokens l tok).map (estTokens strLen)).sum ≤
        max_tokens := by
  intro l
  induction l with
  | nil => intro tok h; simpa [optimizeGo] using h
  | cons c rest ih =>
    intro tok h
    by_cases hc : tok + estTokens strLen c ≤ max_tokens
    · have := ih (tok + estTokens strLen c) hc
      simp only [optimizeGo, hc, if_true, List.map_cons, List.sum_cons]
      omega
    · simpa [optimizeGo, hc] using h

lemma flatMap_const_nil {α β : Type} (l : List α) :
    (l.flatMap (fun _ => ([] : List β))) = [] := by
  induction l with
  | nil => rfl
  | cons a t ih => simp [ih]

/-- C3: `optimize_context` sorts descending by relevance, accepts greedily in
that order stopping at the first over-budget record (the result is a prefix of
the sorted list), and the estimated token sum of the selection never exceeds
`max_tokens`. -/
theorem optimize_context_budget_respected {α : Type} (rel : α → ℚ)
    (strLen : α → ℕ) (contexts : List α) (max_tokens : ℕ) :
    (sortByRelevance rel contexts).Perm contexts ∧
    (sortByRelevance rel contexts).Pairwise (fun a b => rel b ≤ rel a) ∧
    (∃ n, optimize_context rel strLen contexts max_tokens =
      (sortByRelevance rel contexts).take n) ∧
    ((optimize_context rel strLen contexts max_tokens).map (estTokens strLen)).sum ≤
      max_tokens := by
  refine ⟨List.mergeSort_perm contexts _, ?_, ?_, ?_⟩
  · have h := @List.sorted_mergeSort α (fun a b : α => decide (rel b ≤ rel a))
      (fun a b c hab hbc => by
        simp only [decide_eq_true_eq] at *
        exact le_trans hbc hab)
      (fun a b => by
        simp only [Bool.or_eq_true, decide_eq_true_eq]
        exact le_total (rel b) (rel a))
      contexts
    exact h.imp (by simp)
  · exact optimizeGo_take strLen max_tokens _ 0
  · simpa using optimizeGo_budget strLen max_tokens (sortByRelevance rel contexts)
      0 (Nat.zero_le _)

/-- C4 (code slip): `score_relevance` clamps only from above — with
`{"confidence": -1.0}` and query `"x"` it returns `-0.2`, below the
documented lower bound `0.0`. -/
theorem score_relevance_below_zero :
    score_relevance 0 { confidence := some (-1) } "x" = -(1/5) ∧
    score_relevance 0 { confidence := some (-1) } "x" < 0 := by
  have h : score_relevance 0 { confidence := some (-1) } "x" = -(1/5) := by
    simp [score_relevance, CtxRecord.isEmpty, kwComponent, contentFieldsOf,
      fieldCommon, recencyBonus, confidenceBonus, min_def]
    norm_num
  exact ⟨h, by rw [h]; norm_num⟩

/-- C5: each of the four providers' `get_context` is a total function of the
fetch outcome, and an exception anywhere in the `try` body yields a record
with `relevance_score = 0.0` and the `error` field set to `str(e)` — nothing
propagates. -/
theorem providers_recover_errors (e : String) (now : ℚ) (message : String) :
    ((PatientHistoryProvider.get_context now message (Except.error e)).relevance_score = 0 ∧
     (PatientHistoryProvider.get_context now message (Except.error e)).error = some e) ∧
    ((KnowledgeBaseProvider.get_context now message (Except.error e)).relevance_score = 0 ∧
     (KnowledgeBaseProvider.get_context now message (Except.error e)).error = some e) ∧
    ((ServiceClassificationProvider.get_context message (Except.error e)).relevance_score = 0 ∧
     (ServiceClassificationProvider.get_context message (Except.error e)).error = some e) ∧
    ((MedicalIntelligenceProvider.get_context message (Except.error e)).relevance_score = 0 ∧
     (MedicalIntelligenceProvider.get_context message (Except.error e)).error = some e) :=
  ⟨⟨rfl, rfl⟩, ⟨rfl, rfl⟩, ⟨rfl, rfl⟩, ⟨rfl, rfl⟩⟩

/-- C8 (counterexample): on the spec's scenario input the extractor's result
has exactly the five categories of the code — there is no `severity` (nor
`duration`, nor `frequency`) category at all, so the claimed eight-category
mapping with `severity ∋ "severe"` is false. -/
theorem extract_has_no_severity_category :
    ((extract_medical_entities
        "I have severe chest pain and a headache for 3 days").map Prod.fst =
      ["symptoms", "medications", "conditions", "body_parts", "time_references"]) ∧
    (extract_medical_entities
        "I have severe chest pain and a headache for 3 days").lookup "severity" = none ∧
    (extract_medical_entities
        "I have severe chest pain and a headache for 3 days").lookup "duration" = none := by
  decide

/-- C8 (amended): on `"I have severe chest pain and a headache for 3 days"`
the symptoms category includes `"pain"` and `"headache"`; the categories
present are exactly symptoms, medications, conditions, body_parts and
time_references; and `"3 days"` yields no time reference (the pattern
requires `"ago"` or a relative word). -/
theorem extract_scenario_symptoms :
    "pain" ∈ entityGet (extract_medical_entities
      "I have severe chest pain and a headache for 3 days") "symptoms" ∧
    "headache" ∈ entityGet (extract_medical_entities
      "I have severe chest pain and a headache for 3 days") "symptoms" ∧
    entityGet (extract_medical_entities
      "I have severe chest pain and a headache for 3 days") "time_references" = [] ∧
    ((extract_medical_entities
        "I have severe chest pain and a headache for 3 days").map Prod.fst).length = 5 := by
  decide

/-- C9 (counterexample): with an empty query both records score `0.0`
(`not query` short-circuits the scorer), so the 10-day-old record does not
score strictly lower than the 1-hour-old one. -/
theorem score_relevance_empty_query_no_decay :
    score_relevance 0 { timestamp := some (-240) } "" = 0 ∧
    score_relevance 0 { timestamp := some (-1) } "" = 0 ∧
    ¬ (score_relevance 0 { timestamp := some (-240) } "" <
       score_relevance 0 { timestamp := some (-1) } "") := by
  refine ⟨by simp [score_relevance], by simp [score_relevance], ?_⟩
  simp [score_relevance]

/-- C9 (amended): for a non-empty query, two records identical except for
their timestamp and with no keyword overlap with the query, and a confidence
field (if any) below 5, the record timestamped 10 days (240 h) ago scores
strictly lower than the one timestamped 1 hour ago. -/
lemma score_relevance_eval (now : ℚ) (r : CtxRecord) (query : String)
    (hne : r.isEmpty = false) (hq : query ≠ "") :
    score_relevance now r query =
      min (kwComponent query r + recencyBonus now r.timestamp +
        confidenceBonus r.confidence) 1 := by
  rw [score_relevance, if_neg]
  simp [hne, hq]

/-- C9 (amended): for a non-empty query, two records identical except for
their timestamp and with no keyword overlap with the query, and a confidence
field (if any) below 5, the record timestamped 10 days (240 h) ago scores
strictly lower than the one timestamped 1 hour ago. -/
theorem score_relevance_recency_strict (now : ℚ) (query : String) (r : CtxRecord)
    (hq : query ≠ "") (hkw : kwComponent query r = 0)
    (hc : ∀ c, r.confidence = some c → c < 5) :
    score_relevance now { r with timestamp := some (now - 240) } query <
    score_relevance now { r with timestamp := some (now - 1) } query := by
  have hC : confidenceBonus r.confidence < 1 := by
    cases hcf : r.confidence with
    | none => simp [confidenceBonus]
    | some c =>
      have := hc c hcf
      simp only [confidenceBonus]
      linarith
  have hne : ∀ ts : ℚ, ({ r with timestamp := some ts } : CtxRecord).isEmpty = false := by
    intro ts; simp [CtxRecord.isEmpty]
  have hb240 : recencyBonus now (some (now - 240)) = 0 := by
    simp only [recencyBonus, sub_sub_cancel]
    norm_num
  have hb1 : recencyBonus now (some (now - 1)) = 3/10 := by
    simp only [recencyBonus, sub_sub_cancel]
    norm_num
  rw [score_relevance_eval now _ query (hne _) hq,
    score_relevance_eval now _ query (hne _) hq]
  show min (kwComponent query r + recencyBonus now (some (now - 240)) +
      confidenceBonus r.confidence) 1 <
    min (kwComponent query r + recencyBonus now (some (now - 1)) +
      confidenceBonus r.confidence) 1
  rw [hkw, hb240, hb1, zero_add, zero_add, zero_add]
  rw [min_eq_left (le_of_lt hC)]
  exact lt_min (by linarith) hC

/-- C9 witness: at `now = 0`, query `"z"`, and an otherwise-default record
(no content overlap, no confidence), the 240 h old copy scores strictly
below the 1 h old copy. -/
theorem score_relevance_recency_strict_witness :
    score_relevance 0 { timestamp := some ((0:ℚ) - 240) } "z" <
    score_relevance 0 { timestamp := some ((0:ℚ) - 1) } "z" :=
  score_relevance_recency_strict 0 "z" {} (by decide)
    (by simp [kwComponent, contentFieldsOf, fieldCommon])
    (fun c h => nomatch h)

/-! Helper lemmas for the classifier. -/

lemma ruleScore_nonneg (r : ServiceRule) (m : List Char) : 0 ≤ ruleScore r m := by
  have h1 : (0:ℚ) ≤ min ((keywordHits r m : ℚ) / 3) 1 :=
    le_min (by positivity) (by norm_num)
  have h2 : (0:ℚ) ≤ min ((patternHits r m : ℚ) / 2) 1 :=
    le_min (by positivity) (by norm_num)
  unfold ruleScore
  linarith

lemma ruleScore_le_one (r : ServiceRule) (m : List Char) : ruleScore r m ≤ 1 := by
  have h1 : min ((keywordHits r m : ℚ) / 3) 1 ≤ 1 := min_le_right _ _
  have h2 : min ((patternHits r m : ℚ) / 2) 1 ≤ 1 := min_le_right _ _
  unfold ruleScore
  linarith

lemma ruleScore_pos_of (r : ServiceRule) (m : List Char)
    (h : keywordHits r m ≠ 0 ∨ patternHits r m ≠ 0) : 0 < ruleScore r m := by
  have h1 : (0:ℚ) ≤ min ((keywordHits r m : ℚ) / 3) 1 :=
    le_min (by positivity) (by norm_num)
  have h2 : (0:ℚ) ≤ min ((patternHits r m : ℚ) / 2) 1 :=
    le_min (by positivity) (by norm_num)
  rcases h with h | h
  · have hk : (1:ℚ) ≤ (keywordHits r m : ℚ) := by
      exact_mod_cast Nat.one_le_iff_ne_zero.mpr h
    have h3 : (1:ℚ)/3 ≤ min ((keywordHits r m : ℚ) / 3) 1 :=
      le_min (by linarith) (by norm_num)
    unfold ruleScore
    linarith
  · have hp : (1:ℚ) ≤ (patternHits r m : ℚ) := by
      exact_mod_cast Nat.one_le_iff_ne_zero.mpr h
    have h3 : (1:ℚ)/2 ≤ min ((patternHits r m : ℚ) / 2) 1 :=
      le_min (by linarith) (by norm_num)
    unfold ruleScore
    linarith

lemma ruleScore_eq_zero_iff (r : ServiceRule) (m : List Char) :
    ruleScore r m = 0 ↔ keywordHits r m = 0 ∧ patternHits r m = 0 := by
  constructor
  · intro h
    by_contra hcon
    have hor : keywordHits r m ≠ 0 ∨ patternHits r m ≠ 0 := by tauto
    have := ruleScore_pos_of r m hor
    rw [h] at this
    exact lt_irrefl 0 this
  · rintro ⟨h1, h2⟩
    unfold ruleScore
    rw [h1, h2]
    norm_num

lemma foldl_max_mem : ∀ (vs : List ℚ) (v : ℚ), vs.foldl max v ∈ v :: vs := by
  intro vs
  induction vs with
  | nil => intro v; simp
  | cons x xs ih =>
    intro v
    have h2 := ih (max v x)
    simp only [List.foldl_cons]
    rcases List.mem_cons.mp h2 with h3 | h3
    · rw [h3]
      rcases max_choice v x with h4 | h4 <;> simp [h4]
    · simp [h3]

lemma le_foldl_max : ∀ (vs : List ℚ) (v : ℚ),
    v ≤ vs.foldl max v ∧ ∀ y ∈ vs, y ≤ vs.foldl max v := by
  intro vs
  induction vs with
  | nil => intro v; simp
  | cons x xs ih =>
    intro v
    simp only [List.foldl_cons]
    refine ⟨le_trans (le_max_left v x) (ih (max v x)).1, ?_⟩
    intro y hy
    rcases List.mem_cons.mp hy with h | h
    · rw [h]
      exact le_trans (le_max_right v x) (ih (max v x)).1
    · exact (ih (max v x)).2 y h

/-- `classify_interaction` with its `let`s zeta-reduced, for rewriting. -/
lemma classify_interaction_eq (message : String) :
    classify_interaction message =
      match pyMax ((classificationRules.map
          (fun r => (r.name, ruleScore r (lowerStr message)))).map Prod.snd) with
      | none => fallbackClassification
      | some mx =>
        if mx = 0 then fallbackClassification
        else
          match (classificationRules.map
              (fun r => (r.name, ruleScore r (lowerStr message)))).mergeSort
              (fun a b => decide (b.2 ≤ a.2)) with
          | [] => fallbackClassification
          | top :: rest =>
            { service_type := top.1, confidence := top.2,
              sub_services := detect_sub_services (lowerStr message) top.1,
              alternatives := (rest.take 3).filter (fun p => decide (3/10 < p.2)) } :=
  rfl

lemma classify_of_all_zero (message : String)
    (h : ∀ r ∈ classificationRules, ruleScore r (lowerStr message) = 0) :
    classify_interaction message = fallbackClassification := by
  rw [classify_interaction_eq]
  rcases hsv : (classificationRules.map
      (fun r => (r.name, ruleScore r (lowerStr message)))).map Prod.snd with _ | ⟨v, vs⟩
  · rw [hsv]
    rfl
  · have hmem : vs.foldl max v ∈ v :: vs := foldl_max_mem vs v
    rw [← hsv] at hmem
    simp only [List.map_map, List.mem_map] at hmem
    obtain ⟨r, hr, hrv⟩ := hmem
    have h0 : vs.foldl max v = 0 := by
      rw [← hrv]
      exact h r hr
    rw [hsv]
    simp only [pyMax, h0, if_pos]

lemma gibberish_scores_zero :
    ∀ r ∈ classificationRules, ruleScore r (lowerStr "asdkjasd random gibberish") = 0 := by
  have h : ∀ r ∈ classificationRules,
      keywordHits r (lowerStr "asdkjasd random gibberish") = 0 ∧
      patternHits r (lowerStr "asdkjasd random gibberish") = 0 := by decide
  intro r hr
  exact (ruleScore_eq_zero_iff r _).mpr (h r hr)

/-- C6: whenever every service type of the ruleset scores 0, the classifier
returns the fallback: `"General Query"` with confidence exactly 0.3, empty
sub-services and empty alternatives. -/
theorem classify_no_match_fallback (message : String)
    (h : ∀ r ∈ classificationRules, ruleScore r (lowerStr message) = 0) :
    classify_interaction message =
      { service_type := "General Query", confidence := 3/10,
        sub_services := [], alternatives := [] } :=
  classify_of_all_zero message h

/-- C6 witness: `"asdkjasd random gibberish"` matches no keyword or pattern,
so it classifies as the fallback. -/
theorem classify_no_match_fallback_witness :
    classify_interaction "asdkjasd random gibberish" =
      { service_type := "General Query", confidence := 3/10,
        sub_services := [], alternatives := [] } :=
  classify_no_match_fallback _ gibberish_scores_zero

/-- C7 (counterexample): at `"asdkjasd random gibberish"` every ruleset score
is 0 yet the returned confidence is 0.3 — the confidence does not equal the
maximal ruleset score for every message. -/
theorem classify_gibberish_confidence_not_max :
    (∀ r ∈ classificationRules,
      ruleScore r (lowerStr "asdkjasd random gibberish") = 0) ∧
    (classify_interaction "asdkjasd random gibberish").confidence = 3/10 ∧
    (3/10 : ℚ) ≠ 0 := by
  refine ⟨gibberish_scores_zero, ?_, by norm_num⟩
  rw [classify_of_all_zero _ gibberish_scores_zero]
  rfl

/-- C7 (amended): every type's score is
`0.6*min(kw/3,1) + 0.4*min(pat/2,1)`; and whenever some type scores above
zero, the returned `service_type` carries a maximal score and the returned
confidence equals that maximal score, which lies in `[0,1]`.  (When all
scores are 0 the classifier instead returns the `"General Query"` fallback
with confidence 0.3.) -/
theorem classify_confidence_is_max_score (message : String)
    (h : ∃ r ∈ classificationRules, 0 < ruleScore r (lowerStr message)) :
    (∀ r ∈ classificationRules,
      ruleScore r (lowerStr message) =
        (6/10) * min ((keywordHits r (lowerStr message) : ℚ) / 3) 1 +
        (4/10) * min ((patternHits r (lowerStr message) : ℚ) / 2) 1) ∧
    ∃ r ∈ classificationRules,
      (classify_interaction message).service_type = r.name ∧
      (classify_interaction message).confidence = ruleScore r (lowerStr message) ∧
      (∀ r' ∈ classificationRules,
        ruleScore r' (lowerStr message) ≤ ruleScore r (lowerStr message)) ∧
      0 ≤ (classify_interaction message).confidence ∧
      (classify_interaction message).confidence ≤ 1 := by
  refine ⟨fun r _ => by unfold ruleScore; ring, ?_⟩
  obtain ⟨r0, hr0, hr0pos⟩ := h
  rcases hsv : (classificationRules.map
      (fun r => (r.name, ruleScore r (lowerStr message)))).map Prod.snd with _ | ⟨v, vs⟩
  · exact absurd (congrArg List.length hsv) (by simp [classificationRules])
  · -- the maximum of the scores is positive, so the fallback branch is skipped
    have hr0mem : ruleScore r0 (lowerStr message) ∈ v :: vs := by
      rw [← hsv]
      simp only [List.map_map, List.mem_map]
      exact ⟨r0, hr0, rfl⟩
    have hMpos : 0 < vs.foldl max v := by
      rcases List.mem_cons.mp hr0mem with hh | hh
      · have hvle := (le_foldl_max vs v).1
        have hv : 0 < v := by rw [← hh]; exact hr0pos
        linarith
      · have := (le_foldl_max vs v).2 _ hh
        linarith
    -- the sorted score list and its head
    have hperm := List.mergeSort_perm (classificationRules.map
      (fun r => (r.name, ruleScore r (lowerStr message))))
      (fun a b => decide (b.2 ≤ a.2))
    rcases hms : (classificationRules.map
        (fun r => (r.name, ruleScore r (lowerStr message)))).mergeSort
        (fun a b => decide (b.2 ≤ a.2)) with _ | ⟨top, rest⟩
    · rw [hms] at hperm
      have := hperm.length_eq
      simp [classificationRules] at this
    · rw [hms] at hperm
      have hsorted := @List.sorted_mergeSort (String × ℚ)
        (fun a b : String × ℚ => decide (b.2 ≤ a.2))
        (fun a b c hab hbc => by
          simp only [decide_eq_true_eq] at *
          exact le_trans hbc hab)
        (fun a b => by
          simp only [Bool.or_eq_true, decide_eq_true_eq]
          exact le_total (b.2) (a.2))
        (classificationRules.map (fun r => (r.name, ruleScore r (lowerStr message))))
      rw [hms] at hsorted
      have htop_ge : ∀ y ∈ (classificationRules.map
          (fun r => (r.name, ruleScore r (lowerStr message)))), y.2 ≤ top.2 := by
        intro y hy
        have hy' : y ∈ top :: rest := hperm.mem_iff.mpr hy
        rcases List.mem_cons.mp hy' with hh | hh
        · rw [hh]
        · have := (List.pairwise_cons.mp hsorted).1 y hh
          simpa using this
      have htop_mem : top ∈ (classificationRules.map
          (fun r => (r.name, ruleScore r (lowerStr message)))) :=
        hperm.subset (List.mem_cons_self top rest)
      obtain ⟨r, hr, hrtop⟩ := List.mem_map.mp htop_mem
      -- evaluate the classifier on this branch
      have hMne : ¬ (vs.foldl max v = 0) := by
        intro h0
        rw [h0] at hMpos
        exact lt_irrefl 0 hMpos
      have hcl : classify_interaction message =
          { service_type := top.1, confidence := top.2,
            sub_services := detect_sub_services (lowerStr message) top.1,
            alternatives := (rest.take 3).filter (fun p => decide (3/10 < p.2)) } := by
        rw [classify_interaction_eq, hsv]
        simp only [pyMax]
        rw [if_neg hMne, hms]
      refine ⟨r, hr, ?_, ?_, ?_, ?_, ?_⟩
      · rw [hcl, ← hrtop]
      · rw [hcl, ← hrtop]
      · intro r' hr'
        have : (r'.name, ruleScore r' (lowerStr message)).2 ≤ top.2 :=
          htop_ge _ (List.mem_map.mpr ⟨r', hr', rfl⟩)
        rw [← hrtop] at this
        exact this
      · rw [hcl, ← hrtop]
        exact ruleScore_nonneg r _
      · rw [hcl, ← hrtop]
        exact ruleScore_le_one r _

/-- C7 witness: `"insurance"` scores above zero (one Insurance Query keyword
hit), so the theorem's hypotheses hold there. -/
theorem classify_confidence_is_max_score_witness :
    (∀ r ∈ classificationRules,
      ruleScore r (lowerStr "insurance") =
        (6/10) * min ((keywordHits r (lowerStr "insurance") : ℚ) / 3) 1 +
        (4/10) * min ((patternHits r (lowerStr "insurance") : ℚ) / 2) 1) ∧
    ∃ r ∈ classificationRules,
      (classify_interaction "insurance").service_type = r.name ∧
      (classify_interaction "insurance").confidence = ruleScore r (lowerStr "insurance") ∧
      (∀ r' ∈ classificationRules,
        ruleScore r' (lowerStr "insurance") ≤ ruleScore r (lowerStr "insurance")) ∧
      0 ≤ (classify_interaction "insurance").confidence ∧
      (classify_interaction "insurance").confidence ≤ 1 :=
  classify_confidence_is_max_score "insurance" (by
    have h : ∃ r ∈ classificationRules,
        keywordHits r (lowerStr "insurance") ≠ 0 ∨
        patternHits r (lowerStr "insurance") ≠ 0 := by decide
    obtain ⟨r, hr, hk⟩ := h
    exact ⟨r, hr, ruleScore_pos_of r _ hk⟩)

/-- C10: no extraction pattern ever populates `medications` or `conditions`,
so the patient-history record's `medication_history` and `known_conditions`
are empty for every fetched dataset, and its relevance is computed with an
empty medication list — the "+0.2 per matched medication" term contributes
exactly 0. -/
theorem medications_conditions_always_empty :
    (∀ text : String,
      entityGet (extract_medical_entities text) "medications" = [] ∧
      entityGet (extract_medical_entities text) "conditions" = []) ∧
    (∀ (now : ℚ) (message : String) (d : PHData),
      (PatientHistoryProvider.get_context now message (Except.ok d)).medication_history = [] ∧
      (PatientHistoryProvider.get_context now message (Except.ok d)).known_conditions = [] ∧
      (PatientHistoryProvider.get_context now message (Except.ok d)).relevance_score =
        calcHistRelevance now message
          ((d.recent_messages.flatMap
            (fun c => entityGet (extract_medical_entities c) "symptoms")).dedup)
          [] d.conversations) ∧
    (∀ message : String,
      ((([] : List String).filter
        (fun s => containsSub (lowerStr message) s.data)).length : ℚ) * (2/10) = 0) := by
  refine ⟨fun text => ⟨rfl, rfl⟩, ?_, by intro message; simp⟩
  intro now message d
  have hm : (d.recent_messages.flatMap
      (fun c => entityGet (extract_medical_entities c) "medications")) = [] :=
    flatMap_const_nil d.recent_messages
  have hco : (d.recent_messages.flatMap
      (fun c => entityGet (extract_medical_entities c) "conditions")) = [] :=
    flatMap_const_nil d.recent_messages
  refine ⟨?_, ?_, ?_⟩
  · simp [PatientHistoryProvider.get_context, hm]
  · simp [PatientHistoryProvider.get_context, hco]
  · simp [PatientHistoryProvider.get_context, hm]

/-! Helper lemmas for the aggregation server. -/

lemma aggLoop_aligned (results : String → Except String MCPRecord) :
    ∀ (toUse pre : List String), (∀ n ∈ toUse, n ∈ providerNames) →
      aggLoop providerNames ((pre ++ toUse).map results) pre.length toUse =
        (toUse.filterMap (okPair results),
         ((toUse.filterMap (okPair results)).map
           (fun p => p.2.relevance_score.getD 0)).sum) := by
  intro toUse
  induction toUse with
  | nil => intro pre h; rfl
  | cons n rest ih =>
    intro pre h
    have hn : n ∈ providerNames := h n (List.mem_cons_self n rest)
    have hcontains : providerNames.contains n = true := by
      simpa using hn
    have hidx : ((pre ++ n :: rest).map results)[pre.length]? = some (results n) := by
      rw [List.getElem?_map, List.getElem?_append_right (le_refl pre.length)]
      simp
    have hlen : pre.length < ((pre ++ n :: rest).map results).length := by
      simp
    have hrw : (pre ++ n :: rest) = (pre ++ [n]) ++ rest := by simp
    have htail : aggLoop providerNames ((pre ++ n :: rest).map results)
        (pre.length + 1) rest =
        (rest.filterMap (okPair results),
         ((rest.filterMap (okPair results)).map
           (fun p => p.2.relevance_score.getD 0)).sum) := by
      rw [hrw]
      have := ih (pre ++ [n]) (fun x hx => h x (List.mem_cons_of_mem n hx))
      simpa using this
    simp only [aggLoop, htail, hcontains, hidx, decide_eq_true_eq, hlen,
      if_pos, true_and]
    cases hres : results n with
    | ok r => simp [List.filterMap_cons, hres, okPair]
    | error e => simp [List.filterMap_cons, hres, okPair]

/-- C1 (code slip): a cache entry written 86400 s (24 h) earlier is returned
as a fresh hit — `timedelta.seconds` wraps modulo 86400, so the stale entry's
"age" reads 0 < 300 and the providers are not re-invoked, the cache state is
unchanged, although the entry's true age is far beyond the 300 s TTL. -/
theorem mcp_cache_returns_stale_entry_at_24h :
    (MCPServer.get_context 86400
        (fun _ => some ⟨0, ⟨0, "u", none, [], 0⟩⟩)
        (fun _ => Except.error "store offline") "u" "hello" none none) =
      ((⟨0, "u", none, [], 0⟩ : AggregatedContext),
       (fun _ => some ⟨0, ⟨0, "u", none, [], 0⟩⟩)) ∧
    cacheTTL ≤ (86400 : ℤ) - 0 := by
  exact ⟨rfl, by decide⟩

/-- C2: on a cache miss with a duplicate-free selection of known providers,
`get_context` returns (never raising — it is a total function of the
providers' outcomes) a context map holding exactly the non-raising providers'
records, and `total_relevance` sums exactly those records' relevance scores. -/
theorem mcp_get_context_excludes_raising (now : ℤ)
    (cache : String → Option CacheEntry)
    (results : String → Except String MCPRecord) (user_id message : String)
    (conversation_id : Option String) (toUse : List String)
    (hne : toUse ≠ []) (hnd : toUse.Nodup)
    (hsub : ∀ n ∈ toUse, n ∈ providerNames)
    (hmiss : cache (mcpCacheKey user_id conversation_id message) = none) :
    ((MCPServer.get_context now cache results user_id message conversation_id
        (some toUse)).1).contexts = toUse.filterMap (okPair results) ∧
    ((MCPServer.get_context now cache results user_id message conversation_id
        (some toUse)).1).total_relevance =
      ((toUse.filterMap (okPair results)).map
        (fun p => p.2.relevance_score.getD 0)).sum := by
  rcases toUse with _ | ⟨a, as⟩
  · exact absurd rfl hne
  · have hfil : (a :: as).filter (fun n => providerNames.contains n) = a :: as :=
      List.filter_eq_self.mpr (fun x hx => by simpa using hsub x hx)
    have hagg := aggLoop_aligned results (a :: as) [] hsub
    simp only [List.nil_append, List.length_nil] at hagg
    simp only [MCPServer.get_context, hmiss, hfil, hagg]
    exact ⟨trivial, trivial⟩

/-- C2 witness: two selected providers, one raising — the result holds the
other's record alone and sums only its relevance. -/
theorem mcp_get_context_excludes_raising_witness :
    ((MCPServer.get_context 0 (fun _ => none)
        (fun n => if n = "patient_history"
          then Except.ok ⟨some (1/2), 7⟩ else Except.error "db down")
        "u" "m" none (some ["patient_history", "knowledge_base"])).1).contexts =
      (["patient_history", "knowledge_base"].filterMap
        (okPair (fun n => if n = "patient_history"
          then Except.ok ⟨some (1/2), 7⟩ else Except.error "db down"))) ∧
    ((MCPServer.get_context 0 (fun _ => none)
        (fun n => if n = "patient_history"
          then Except.ok ⟨some (1/2), 7⟩ else Except.error "db down")
        "u" "m" none (some ["patient_history", "knowledge_base"])).1).total_relevance =
      ((["patient_history", "knowledge_base"].filterMap
        (okPair (fun n => if n = "patient_history"
          then Except.ok ⟨some (1/2), 7⟩ else Except.error "db down"))).map
        (fun p => p.2.relevance_score.getD 0)).sum :=
  mcp_get_context_excludes_raising 0 _ _ "u" "m" none _
    (by decide) (by decide) (by decide) rfl

end Aura
